import Mathlib

/-!
Verification of the ENGIE HR Hub headless-login core
(`src/engie_hr_mcp/login.py`, class `ENGIEHRLogin`): session store
(`save_session` / `load_session`), authentication flow
(`get_initial_auth_params`, `perform_login`, `test_authenticated_access`),
session lifecycle (`_ensure_authenticated`), and the validate-then-commit
certificate-of-attendance submission (`apply_coa`, `_get_employee_id`).

The embedding is shallow: HTTP responses and parsed HTML documents are
supplied by an environment record (the transport and the HTML parser are
external collaborators), and every operation returns, besides its result,
the list of network requests it issued, in order.  Distinct exit paths of
a Python function that returns a bare `bool` are modelled by an inductive
result type whose constructors correspond one-to-one to the function's
distinct diagnostic messages; `toBool` recovers the Python return value.
-/

namespace SproutHeadless

/-- Does `pat` occur as a contiguous run inside `s`?  (The kernel-friendly
core of Python's `pat in s`.) -/
def listContains (pat : List Char) : List Char → Bool
  | [] => pat.isEmpty
  | c :: rest => pat.isPrefixOf (c :: rest) || listContains pat rest

/-- Python's `pat in s` substring test on strings. -/
def containsSubstr (s pat : String) : Bool :=
  listContains pat.data s.data

/-- Split a character list at every occurrence of `sep`
(`str.split(sep)` for a one-character separator, as `'%Y-%m-%d'`
parsing needs). -/
def splitOnChar (sep : Char) : List Char → List (List Char)
  | [] => [[]]
  | c :: rest =>
    if c == sep then [] :: splitOnChar sep rest
    else
      match splitOnChar sep rest with
      | [] => [[c]]
      | g :: gs => (c :: g) :: gs

/-- Numeric value of a digit run (`int(s)` for an all-digit `s`). -/
def digitsVal (cs : List Char) : Nat :=
  cs.foldl (fun n c => n * 10 + (c.toNat - 48)) 0

/-- Python's `str.isdigit` restricted to ASCII digits: nonempty and all
digits, on a character list. -/
def isDigitChars (cs : List Char) : Bool :=
  !cs.isEmpty && cs.all Char.isDigit

/-- Python's `str.isdigit` on strings. -/
def isDigits (s : String) : Bool :=
  isDigitChars s.data

/-- ASCII lowercasing of one character, for case-insensitive matching. -/
def lowerChar (c : Char) : Char :=
  if 'A' ≤ c ∧ c ≤ 'Z' then Char.ofNat (c.toNat + 32) else c

/-- ASCII lowercasing of a string (`str.lower()`). -/
def lowerStr (s : String) : String :=
  ⟨s.data.map lowerChar⟩

/-- Python truthiness of an optional string argument (`None` and `""` are falsy):
`apply_coa` tests `if time_in:` / `if not time_in and not time_out:`. -/
def strTruthy : Option String → Bool
  | none => false
  | some s => !s.data.isEmpty

/-- Days of a month in the proleptic Gregorian calendar used by
`datetime` (leap years: divisible by 4, except centuries not divisible by 400). -/
def daysInMonth (y m : Nat) : Nat :=
  if m = 2 then
    (if y % 4 = 0 ∧ (y % 100 ≠ 0 ∨ y % 400 = 0) then 29 else 28)
  else if m = 4 ∨ m = 6 ∨ m = 9 ∨ m = 11 then 30
  else 31

/-- The day field of CPython's `%d` pattern
`3[01]|[12]\d|0[1-9]|[1-9]| [1-9]`, at the value level: either one or
two digits (the value-range alternatives are equivalent to a numeric
bound of 1-31, enforced later together with the month length), or a
space followed by a single nonzero digit. -/
def dayFieldVal (d : List Char) : Option Nat :=
  if isDigitChars d = true ∧ d.length ≤ 2 then some (digitsVal d)
  else
    match d with
    | [' ', c] => if '1' ≤ c ∧ c ≤ '9' then some (c.toNat - 48) else none
    | _ => none

/-- Model of `datetime.strptime(s, '%Y-%m-%d')` as used by `apply_coa`
line 441, following CPython's `_strptime` patterns
(`%Y` is `\d\d\d\d`, exactly four digits; `%m` is `1[0-2]|0[1-9]|[1-9]`,
one or two digits valued 1-12; `%d` as in `dayFieldVal`), the
no-unconverted-data check, and the `datetime(year, month, day)`
construction that rejects year 0 (`MINYEAR` is 1) and a day beyond the
month's length.  Returns the parsed (year, month, day) or `none` on
`ValueError`.  The model reads ASCII digits; CPython's `\d` also
matches non-ASCII Unicode decimal digits, so theorems quantifying over
non-parsing strings carry an ASCII hypothesis. -/
def parseDateYMD (s : String) : Option (Nat × Nat × Nat) :=
  match splitOnChar '-' s.data with
  | [y, m, d] =>
    if isDigitChars y = true ∧ y.length = 4 ∧ isDigitChars m = true
        ∧ m.length ≤ 2 then
      match dayFieldVal d with
      | some dn =>
        let yn := digitsVal y
        let mn := digitsVal m
        if 1 ≤ yn ∧ 1 ≤ mn ∧ mn ≤ 12 ∧ 1 ≤ dn ∧ dn ≤ daysInMonth yn mn then
          some (yn, mn, dn)
        else none
      | none => none
    else none
  | _ => none

/-- The character list after the first occurrence of `sep`, when any. -/
def dropThroughSep (sep : List Char) : List Char → Option (List Char)
  | [] => none
  | c :: rest =>
    if sep.isPrefixOf (c :: rest) then some ((c :: rest).drop sep.length)
    else dropThroughSep sep rest

/-- Host component of a URL string: the text between `"://"` and the next
`"/"` (the specification's notion of "the final URL's host").  The source
never computes this; it is needed to state claims about host checking. -/
def urlHost (url : String) : String :=
  let cs := url.data
  let afterScheme := (dropThroughSep "://".data cs).getD cs
  ⟨(splitOnChar '/' afterScheme).headD []⟩

/-! ### Session store (`save_session` / `load_session`) -/

/-- A cookie jar: ordered name/value pairs (`requests.Session.cookies`
viewed through `dict(...)` / `cookies.set(name, value)`). -/
abbrev Jar := List (String × String)

/-- First value stored under `n` in a jar (`cookies.get(n)`). -/
def lookupName (n : String) : Jar → Option String
  | [] => none
  | p :: rest => if p.1 = n then some p.2 else lookupName n rest

/-- Model of `session.cookies.set(name, value)`: overwrite the value of an existing
cookie of that name, otherwise append a fresh cookie. -/
def cookieSet (jar : Jar) (name value : String) : Jar :=
  if jar.any (fun p => p.1 == name) then
    jar.map (fun p => if p.1 = name then (p.1, value) else p)
  else jar ++ [(name, value)]

/-- The state of the session file as `load_session` can observe it:
absent (`FileNotFoundError`), unusable (`json.load` or the subsequent
dict access raises), or a parsed JSON record whose `cookies` key holds a
string-to-string mapping (`none` when the key is absent, in which case
`session_data.get('cookies', {})` yields the empty mapping). -/
inductive FileContent where
  | missing
  | malformed
  | record (cookies : Option Jar)
deriving DecidableEq, Repr

/-- The three exit paths of `load_session`, one per diagnostic:
`loaded` prints "Session loaded" and returns `True`; `notFound` prints
"No existing session file found" and returns `False`; `loadError` prints
"Error loading session" and returns `False`. -/
inductive LoadResult where
  | loaded
  | notFound
  | loadError
deriving DecidableEq, Repr

/-- The `bool` that `load_session` actually returns. -/
def LoadResult.toBool : LoadResult → Bool
  | .loaded => true
  | .notFound => false
  | .loadError => false

/-- Result of `load_session`: the exit path taken and the cookie jar
afterwards. -/
structure LoadOutcome where
  result : LoadResult
  jar : Jar
deriving DecidableEq, Repr

/-- Embedding of `ENGIEHRLogin.load_session` (login.py lines 276-296): read the file;
on success iterate `session_data.get('cookies', {}).items()` and
`self.session.cookies.set(name, value)` each pair into the existing jar.
`FileNotFoundError` and any other exception are caught and reported as
`False`; the jar is untouched on failure. -/
def load_session (jar : Jar) (file : FileContent) : LoadOutcome :=
  match file with
  | .missing => ⟨.notFound, jar⟩
  | .malformed => ⟨.loadError, jar⟩
  | .record cookies =>
      ⟨.loaded, (cookies.getD []).foldl (fun j p => cookieSet j p.1 p.2) jar⟩

/-- Embedding of `ENGIEHRLogin.save_session` (login.py lines 256-274): serialize
`{'cookies': dict(self.session.cookies), 'headers': dict(self.session.headers)}`
to the file.  Only the `cookies` mapping is ever read back, so the model
records the written file as a `record` carrying the jar. -/
def save_session (cookies _headers : Jar) : FileContent :=
  .record (some cookies)

/-! ### Environment: responses the transport and parser supply -/

/-- One network request, in the order issued.  `getBase` is the redirect
chain from `self.base_url`; `getDashboard` is a GET of
`EmployeeDashboard.aspx`; `postLogin` is the credential POST;
`postFormPost` is the OIDC form_post completion POST; `postValidate` and
`postCommit` are the two certificate-of-attendance POSTs. -/
inductive NetEvent where
  | getBase
  | getDashboard
  | postLogin
  | postFormPost
  | postValidate
  | postCommit
deriving DecidableEq, Repr

/-- A parsed HTML `form` element as BeautifulSoup exposes it:
`form.get('action')` (absent attribute is `None`, and an empty string is
falsy in the source's `if action_url:` tests), and the
`(name, value)` attribute pairs of its `input` children, where a missing
`name` is `None` and a missing `value` defaults to `""`. -/
structure FormTag where
  action : Option String
  inputs : List (Option String × String)
deriving DecidableEq, Repr

/-- The response ending the initial redirect chain (`session.get(self.base_url)`):
HTTP status, final URL, its parsed query string (`parse_qs`: each key maps
to a list of values), and the form found by
`soup.find('form', {'id': 'kc-form-login'})`. -/
structure InitialResp where
  status : Nat
  url : String
  query : List (String × List String)
  loginForm : Option FormTag
deriving Repr

/-- The response to the credential POST: HTTP status, the first form of
the body (`soup.find('form')`), and the text of the error element
(`soup.find('span', class_='kc-feedback-text')`) when present. -/
structure LoginResp where
  status : Nat
  firstForm : Option FormTag
  feedback : Option String
deriving Repr

/-- The response ending the form_post completion POST: only its final URL
is inspected. -/
structure FinalResp where
  url : String
deriving DecidableEq, Repr

/-- A GET of `EmployeeDashboard.aspx`: HTTP status, raw body text (for
the `"Employee Dashboard"` marker probe), and the parser-level views
`_get_employee_id` consumes — the first numeric capture of the script
regex scan (provided by the environment, the regex engine being an
external collaborator), the hidden `input` `(name, value)` pairs, and
the value of the first element with a `data-employee-id` attribute. -/
structure DashResp where
  status : Nat
  text : String
  jsEmployeeId : Option Nat
  hiddenInputs : List (String × String)
  dataEmployeeId : Option String
deriving Repr

/-- Minimal JSON values, for the commit response body; `truthy` is
Python truthiness. -/
inductive Json where
  | null
  | bool (b : Bool)
  | num (n : Int)
  | str (s : String)
  | arr (elems : List Json)
  | obj (fields : List (String × Json))

/-- Python truthiness of a JSON value (`if result.get('d'):`). -/
def Json.truthy : Json → Bool
  | .null => false
  | .bool b => b
  | .num n => n != 0
  | .str s => s.length != 0
  | .arr elems => elems.length != 0
  | .obj fields => fields.length != 0

/-- The validate-phase response: only its status code is inspected. -/
structure ValidateResp where
  status : Nat
deriving DecidableEq, Repr

/-- The commit-phase response: status code and parsed body
(`none` when `submit_response.json()` raises). -/
structure CommitResp where
  status : Nat
  body : Option Json

/-- Everything the outside world answers during one run: the session
file on disk, the cookie jar the session starts with, the dashboard
response to the k-th dashboard GET of the run, and the responses to the
five other requests. -/
structure Env where
  file : FileContent
  initialJar : Jar
  dashboard : Nat → DashResp
  initial : InitialResp
  login : LoginResp
  formPost : FinalResp
  validate : ValidateResp
  commit : CommitResp

/-! ### Authentication flow -/

/-- Exit paths of `get_initial_auth_params` (login.py lines 35-86), one
per diagnostic: non-200 status, final URL not containing
`"sso.sprout.ph"`, no `kc-form-login` form, form without a truthy
`action`; on success the scalar-collapsed query parameters and the
login action URL are captured. -/
inductive AuthParamsResult where
  | ok (params : List (String × Sum String (List String))) (actionUrl : String)
  | httpError (status : Nat)
  | unexpectedHost
  | noLoginForm
  | noFormAction
deriving DecidableEq, Repr

/-- The `bool` `get_initial_auth_params` returns. -/
def AuthParamsResult.toBool : AuthParamsResult → Bool
  | .ok _ _ => true
  | _ => false

/-- Scalar collapse of `parse_qs` output (login.py lines 61-63): a key
whose value list has exactly one element is stored as that single value. -/
def collapseQuery (q : List (String × List String)) :
    List (String × Sum String (List String)) :=
  q.map fun p =>
    match p.2 with
    | [v] => (p.1, Sum.inl v)
    | vs => (p.1, Sum.inr vs)

/-- Embedding of `ENGIEHRLogin.get_initial_auth_params` (login.py lines 35-86): GET
the base URL following redirects; require status 200; require
`"sso.sprout.ph" in response.url` (a substring test on the whole URL);
capture the scalar-collapsed query parameters; find the `kc-form-login`
form and its truthy `action`. -/
def get_initial_auth_params (env : Env) : AuthParamsResult × List NetEvent :=
  let r := env.initial
  ( if r.status != 200 then .httpError r.status
    else if !containsSubstr r.url "sso.sprout.ph" then .unexpectedHost
    else
      match r.loginForm with
      | none => .noLoginForm
      | some form =>
        match form.action with
        | some a => if a.length != 0 then .ok (collapseQuery r.query) a
                    else .noFormAction
        | none => .noFormAction
  , [.getBase])

/-- Exit paths of `perform_login` (login.py lines 88-172), one per
diagnostic: success (landed on the dashboard), wrong landing URL,
explicit credential-error feedback, no form_post in the body, non-200
status on the credential POST. -/
inductive LoginResult where
  | ok
  | unexpectedLanding (url : String)
  | invalidCredentials (msg : String)
  | noPostBack
  | httpError (status : Nat)
deriving DecidableEq, Repr

/-- The `bool` `perform_login` returns. -/
def LoginResult.toBool : LoginResult → Bool
  | .ok => true
  | _ => false

/-- Embedding of `ENGIEHRLogin.perform_login` (login.py lines 88-172): POST the
credentials with redirects disabled; on 200, if the body has a form with
a truthy `action`, POST the form_post and require the final URL to
contain both `"engie.hrhub.ph"` and `"EmployeeDashboard.aspx"`;
otherwise report the `kc-feedback-text` error if present, else the
absence of a form_post; non-200 is an HTTP error. -/
def perform_login (env : Env) : LoginResult × List NetEvent :=
  let r := env.login
  if r.status == 200 then
    match r.firstForm with
    | some form =>
      match form.action with
      | some a =>
        if a.length != 0 then
          let fr := env.formPost
          if containsSubstr fr.url "engie.hrhub.ph"
              && containsSubstr fr.url "EmployeeDashboard.aspx" then
            (.ok, [.postLogin, .postFormPost])
          else (.unexpectedLanding fr.url, [.postLogin, .postFormPost])
        else
          match r.feedback with
          | some msg => (.invalidCredentials msg, [.postLogin])
          | none => (.noPostBack, [.postLogin])
      | none =>
        match r.feedback with
        | some msg => (.invalidCredentials msg, [.postLogin])
        | none => (.noPostBack, [.postLogin])
    | none =>
      match r.feedback with
      | some msg => (.invalidCredentials msg, [.postLogin])
      | none => (.noPostBack, [.postLogin])
  else (.httpError r.status, [.postLogin])

/-- Embedding of `ENGIEHRLogin.test_authenticated_access` (login.py lines 174-202):
GET the dashboard (the k-th dashboard GET of the run) and succeed
exactly when the status is 200 and the body contains
`"Employee Dashboard"`. -/
def test_authenticated_access (env : Env) (k : Nat) : Bool × List NetEvent :=
  let r := env.dashboard k
  ((r.status == 200) && containsSubstr r.text "Employee Dashboard",
   [.getDashboard])

/-! ### Session lifecycle (`_ensure_authenticated`) -/

/-- The fresh-authentication tail of `_ensure_authenticated` (login.py
lines 371-389), reached when no saved session works: run
`get_initial_auth_params`, then `perform_login`, then verify with
`test_authenticated_access`, then `save_session` (best-effort file
write, not a network event).  `t0` is the trace already accumulated and
`k` the number of dashboard GETs already issued. -/
def fresh_authentication (env : Env) (k : Nat) (t0 : List NetEvent) :
    Bool × List NetEvent :=
  let p := get_initial_auth_params env
  if !p.1.toBool then (false, t0 ++ p.2)
  else
    let l := perform_login env
    if !l.1.toBool then (false, t0 ++ p.2 ++ l.2)
    else
      let a := test_authenticated_access env k
      if !a.1 then (false, t0 ++ p.2 ++ l.2 ++ a.2)
      else (true, t0 ++ p.2 ++ l.2 ++ a.2)

/-- Embedding of `ENGIEHRLogin._ensure_authenticated` (login.py lines 348-393): try
`load_session`; if it returns `True`, probe with
`test_authenticated_access` and on success return `True` with no further
requests (the reuse fast path); otherwise fall through to the fresh
authentication tail. -/
def ensure_authenticated (env : Env) : Bool × List NetEvent :=
  if (load_session env.initialJar env.file).result.toBool then
    let probe := test_authenticated_access env 0
    if probe.1 then (true, probe.2)
    else fresh_authentication env 1 probe.2
  else fresh_authentication env 0 []

/-! ### Employee-id resolution and COA submission -/

/-- Embedding of `ENGIEHRLogin._get_employee_id` (login.py lines 537-594): GET the
dashboard; on non-200 return `None`; otherwise try, in order, the
script regex scan, the first hidden input whose name contains
`"employee"` (case-insensitive) and whose value is all digits, and the
first `data-employee-id` attribute whose value is all digits. -/
def get_employee_id (env : Env) (k : Nat) : Option Nat × List NetEvent :=
  let r := env.dashboard k
  ( if r.status != 200 then none
    else
      match r.jsEmployeeId with
      | some n => some n
      | none =>
        match r.hiddenInputs.find? fun p =>
            containsSubstr (lowerStr p.1) "employee" && isDigits p.2 with
        | some p => some (digitsVal p.2.data)
        | none =>
          match r.dataEmployeeId with
          | some v => if isDigits v then some (digitsVal v.data) else none
          | none => none
  , [.getDashboard])

/-- One element of `FormattedCertificateLogs` (login.py lines 449-463):
the target date, a time of day, the tag `"In"` or `"Out"`, and the
placeholder record id 0. -/
structure CertLog where
  FormattedDate : String
  FormattedTime : String
  typeTag : String
  CertificateLogID : Nat
deriving DecidableEq, Repr

/-- The `certificate_logs` list built by `apply_coa` (login.py lines
446-463): an `"In"` entry when `time_in` is truthy, then an `"Out"`
entry when `time_out` is truthy. -/
def certificateLogs (target_date : String) (time_in time_out : Option String) :
    List CertLog :=
  (if strTruthy time_in then
    [⟨target_date, time_in.getD "", "In", 0⟩] else [])
  ++ (if strTruthy time_out then
    [⟨target_date, time_out.getD "", "Out", 0⟩] else [])

/-- The `certificateOfAttendance` payload object (login.py lines
472-482): record id 0, category code `"0"` ("Others"), the free-text
labels, a null status, the resolved employee id, and the log entries. -/
structure CoaPayload where
  CertificateOfAttendanceID : Nat
  CertificateTypeID : String
  CertificateTypeOthers : String
  Remarks : String
  Status : Option String
  EmployeeID : Nat
  FormattedCertificateLogs : List CertLog
deriving DecidableEq, Repr

/-- Exit paths of `apply_coa` (login.py lines 395-535), one per
diagnostic: missing times, authentication failure, invalid date, no
employee id, validate-phase non-200, commit-phase non-200, accepted
(truthy `d`, or a 200 whose body could not be used), and a parsed body
whose `d` is absent or falsy. -/
inductive CoaOutcome where
  | missingTimes
  | authFailed
  | invalidDate
  | noEmployeeId
  | validateFailed (status : Nat)
  | commitFailed (status : Nat)
  | accepted
  | unexpectedResponse
deriving DecidableEq, Repr

/-- The `bool` `apply_coa` returns. -/
def CoaOutcome.toBool : CoaOutcome → Bool
  | .accepted => true
  | _ => false

/-- Interpretation of the commit response body on HTTP 200 (login.py
lines 516-531): if `submit_response.json()` raised, assume success; if
the parsed value is a JSON object, succeed exactly when its `d` field
(last occurrence, as Python's JSON decoder keeps the last duplicate
key) is present and truthy, else report an unexpected response; a
parsed non-object raises in `result.get('d')`, is caught by the same
handler, and is likewise assumed successful. -/
def commitOutcome (body : Option Json) : CoaOutcome :=
  match body with
  | none => .accepted
  | some (.obj fields) =>
    match fields.reverse.lookup "d" with
    | some v => if v.truthy then .accepted else .unexpectedResponse
    | none => .unexpectedResponse
  | some _ => .accepted

/-- Result of `apply_coa`: the exit path, the payload POSTed to the
validate and commit endpoints (`none` when the run ended before building
it), and the network requests issued, in order. -/
structure CoaResult where
  outcome : CoaOutcome
  payload : Option CoaPayload
  events : List NetEvent

/-- Embedding of `ENGIEHRLogin.apply_coa` (login.py lines 395-535), in source order:
reject when neither time is truthy (before any request); run
`_ensure_authenticated`; parse the date as `%Y-%m-%d`; build the log
entries; resolve the employee id; build the payload; POST it to
`ValidateSameFiling` and stop on non-200; POST the identical payload to
`Save` and stop on non-200; interpret the commit body. -/
def apply_coa (env : Env) (target_date : String)
    (time_in time_out : Option String) (reason type_other : String) :
    CoaResult :=
  if !strTruthy time_in && !strTruthy time_out then ⟨.missingTimes, none, []⟩
  else
    let auth := ensure_authenticated env
    if !auth.1 then ⟨.authFailed, none, auth.2⟩
    else
      match parseDateYMD target_date with
      | none => ⟨.invalidDate, none, auth.2⟩
      | some _ =>
        let logs := certificateLogs target_date time_in time_out
        let emp := get_employee_id env (auth.2.count .getDashboard)
        match emp.1 with
        | none => ⟨.noEmployeeId, none, auth.2 ++ emp.2⟩
        | some eid =>
          let payload : CoaPayload :=
            ⟨0, "0", type_other, reason, none, eid, logs⟩
          if env.validate.status != 200 then
            ⟨.validateFailed env.validate.status, some payload,
              auth.2 ++ emp.2 ++ [.postValidate]⟩
          else if env.commit.status != 200 then
            ⟨.commitFailed env.commit.status, some payload,
              auth.2 ++ emp.2 ++ [.postValidate, .postCommit]⟩
          else
            ⟨commitOutcome env.commit.body, some payload,
              auth.2 ++ emp.2 ++ [.postValidate, .postCommit]⟩

/-! ### Concrete environments used to instantiate the theorems -/

/-- A dashboard response of an authenticated session: status 200, the
`"Employee Dashboard"` marker, and employee id 6033 found by the script
scan. -/
def goodDash : DashResp :=
  ⟨200, "<html><body>Employee Dashboard</body></html>", some 6033, [], none⟩

/-- A well-behaved initial redirect: it ends on the identity provider
with a login form. -/
def goodInitial : InitialResp :=
  ⟨200, "https://sso.sprout.ph/auth/realms/hr/login?client_id=hrhub",
   [("client_id", ["hrhub"])],
   some ⟨some "https://sso.sprout.ph/auth/realms/hr/login-actions/authenticate", []⟩⟩

/-- A credential-POST response carrying the OIDC form_post. -/
def goodLogin : LoginResp :=
  ⟨200, some ⟨some "https://engie.hrhub.ph/signin-oidc", [(some "code", "xyz")]⟩, none⟩

/-- A form_post completion that lands on the dashboard. -/
def goodFinal : FinalResp := ⟨"https://engie.hrhub.ph/EmployeeDashboard.aspx"⟩

/-- A commit body with a truthy `d` wrapper. -/
def goodCommitBody : Json := .obj [("d", .obj [("IsSuccess", .bool true)])]

/-- Build an environment from the parts the claims vary: session-file
state, initial-redirect response, validate and commit status codes, and
the commit body. -/
def mkEnv (file : FileContent) (init : InitialResp)
    (validateStatus commitStatus : Nat) (body : Option Json) : Env :=
  ⟨file, [], fun _ => goodDash, init, goodLogin, goodFinal,
   ⟨validateStatus⟩, ⟨commitStatus, body⟩⟩

/-- A saved session that still works: the reuse fast path. -/
def happyEnv : Env :=
  mkEnv (.record (some [("sid", "abc")])) goodInitial 200 200 (some goodCommitBody)

/-- No saved session: the fresh-authentication path. -/
def freshEnv : Env :=
  mkEnv .missing goodInitial 200 200 (some goodCommitBody)

/-- A saved session, but the validate endpoint answers 500. -/
def validate500Env : Env :=
  mkEnv (.record (some [("sid", "abc")])) goodInitial 500 200 (some goodCommitBody)

/-- An initial redirect ending on a foreign host whose URL merely
contains the identity provider's name in its path, with a login form
present. -/
def evilInitial : InitialResp :=
  ⟨200, "https://evil.example/sso.sprout.ph",
   [], some ⟨some "https://evil.example/login", []⟩⟩

/-- Environment whose initial redirect is `evilInitial`. -/
def evilEnv : Env :=
  mkEnv .missing evilInitial 200 200 (some goodCommitBody)

/-- A saved session whose commit response is HTTP 200 but unparsable. -/
def unparsableCommitEnv : Env :=
  mkEnv (.record (some [("sid", "abc")])) goodInitial 200 200 none

/-- A saved session whose commit response is HTTP 200 with a falsy `d`. -/
def falsyCommitEnv : Env :=
  mkEnv (.record (some [("sid", "abc")])) goodInitial 200 200
    (some (.obj [("d", .null)]))

/-- The payload `apply_coa` builds in `happyEnv` for date `2025-07-20`,
in `09:32`, out `17:30`, reason `"r"`, category text `"t"`. -/
def happyPayload : CoaPayload :=
  ⟨0, "0", "t", "r", none, 6033,
   [⟨"2025-07-20", "09:32", "In", 0⟩, ⟨"2025-07-20", "17:30", "Out", 0⟩]⟩

/-! ### Lemmas about the cookie jar -/

lemma lookupName_eq_none_of_forall (jar : Jar) (n : String)
    (h : ∀ p ∈ jar, p.1 ≠ n) : lookupName n jar = none := by
  induction jar with
  | nil => rfl
  | cons p rest ih =>
    simp [lookupName, h p (List.mem_cons_self p rest),
      ih fun q hq => h q (List.mem_cons_of_mem p hq)]

lemma any_eq_false_lookupName (jar : Jar) (m : String)
    (h : jar.any (fun p => p.1 == m) = false) : lookupName m jar = none := by
  induction jar with
  | nil => rfl
  | cons p rest ih =>
    simp only [List.any_cons, Bool.or_eq_false_iff, beq_eq_false_iff_ne] at h
    simp [lookupName, h.1, ih h.2]

lemma lookupName_map_set_ne (jar : Jar) (n m v : String) (hnm : n ≠ m) :
    lookupName n (jar.map fun p => if p.1 = m then (p.1, v) else p) =
      lookupName n jar := by
  induction jar with
  | nil => rfl
  | cons p rest ih =>
    by_cases hpm : p.1 = m
    · have hmn : ¬ m = n := fun h => hnm h.symm
      simp [lookupName, hpm, hmn, ih]
    · by_cases hpn : p.1 = n <;> simp [lookupName, hpm, hpn, hnm, ih]

lemma lookupName_map_set_eq (jar : Jar) (m v : String)
    (hany : jar.any (fun p => p.1 == m) = true) :
    lookupName m (jar.map fun p => if p.1 = m then (p.1, v) else p) = some v := by
  induction jar with
  | nil => simp at hany
  | cons p rest ih =>
    by_cases hpm : p.1 = m
    · simp [lookupName, hpm]
    · have hrest : rest.any (fun p => p.1 == m) = true := by
        simp only [List.any_cons, Bool.or_eq_true, beq_iff_eq] at hany
        exact (hany.resolve_left hpm)
      simp [lookupName, hpm, ih hrest]

lemma lookupName_append_ne (l : Jar) (n m v : String) (hnm : n ≠ m) :
    lookupName n (l ++ [(m, v)]) = lookupName n l := by
  induction l with
  | nil => simp [lookupName, Ne.symm hnm]
  | cons p rest ih => by_cases hpn : p.1 = n <;> simp [lookupName, hpn, ih]

lemma lookupName_append_self (l : Jar) (m v : String)
    (h : lookupName m l = none) :
    lookupName m (l ++ [(m, v)]) = some v := by
  induction l with
  | nil => simp [lookupName]
  | cons p rest ih =>
    by_cases hpm : p.1 = m
    · simp only [lookupName, if_pos hpm] at h
      exact absurd h (by simp)
    · simp only [List.cons_append, lookupName, if_neg hpm] at h ⊢
      exact ih h

lemma lookupName_cookieSet (jar : Jar) (n m v : String) :
    lookupName n (cookieSet jar m v) =
      if n = m then some v else lookupName n jar := by
  unfold cookieSet
  by_cases hany : jar.any (fun p => p.1 == m) = true
  · rw [if_pos hany]
    by_cases hnm : n = m
    · subst hnm
      rw [if_pos rfl]
      exact lookupName_map_set_eq jar n v hany
    · rw [if_neg hnm]
      exact lookupName_map_set_ne jar n m v hnm
  · have hf : jar.any (fun p => p.1 == m) = false := by
      cases hb : jar.any (fun p => p.1 == m)
      · rfl
      · exact absurd hb hany
    rw [if_neg hany]
    by_cases hnm : n = m
    · subst hnm
      rw [if_pos rfl]
      exact lookupName_append_self jar n v (any_eq_false_lookupName jar n hf)
    · rw [if_neg hnm]
      exact lookupName_append_ne jar n m v hnm

lemma mem_cookieSet (jar : Jar) (q : String × String) (m v : String)
    (hq : q ∈ jar) (hne : q.1 ≠ m) : q ∈ cookieSet jar m v := by
  unfold cookieSet
  split
  · exact List.mem_map.mpr ⟨q, hq, by simp [hne]⟩
  · exact List.mem_append_left _ hq

lemma mem_foldl_cookieSet (M : Jar) (jar : Jar) (q : String × String)
    (hq : q ∈ jar) (h : q.1 ∉ M.map Prod.fst) :
    q ∈ M.foldl (fun j p => cookieSet j p.1 p.2) jar := by
  induction M generalizing jar with
  | nil => simpa using hq
  | cons p M' ih =>
    simp only [List.map_cons, List.mem_cons, not_or] at h
    rw [List.foldl_cons]
    exact ih (cookieSet jar p.1 p.2) (mem_cookieSet jar q p.1 p.2 hq h.1) h.2

lemma lookupName_foldl_cookieSet (M : Jar) (jar : Jar) (n : String)
    (hM : (M.map Prod.fst).Nodup) :
    lookupName n (M.foldl (fun j p => cookieSet j p.1 p.2) jar) =
      (lookupName n M).elim (lookupName n jar) some := by
  induction M generalizing jar with
  | nil => simp [lookupName]
  | cons p M' ih =>
    simp only [List.map_cons, List.nodup_cons] at hM
    rw [List.foldl_cons, ih _ hM.2]
    by_cases hnp : n = p.1
    · subst hnp
      have hM'none : lookupName p.1 M' = none := by
        apply lookupName_eq_none_of_forall
        intro q hq hq1
        exact hM.1 (hq1 ▸ List.mem_map_of_mem Prod.fst hq)
      simp [lookupName, lookupName_cookieSet, hM'none]
    · have hpn : ¬ p.1 = n := fun h => hnp h.symm
      cases h : lookupName n M' <;>
        simp [lookupName, lookupName_cookieSet, hnp, hpn, h]

lemma foldl_cookieSet_of_disjoint (M : Jar) (jar : Jar)
    (hd : ∀ p ∈ jar, ∀ q ∈ M, p.1 ≠ q.1) (hM : (M.map Prod.fst).Nodup) :
    M.foldl (fun j p => cookieSet j p.1 p.2) jar = jar ++ M := by
  induction M generalizing jar with
  | nil => simp
  | cons p M' ih =>
    simp only [List.map_cons, List.nodup_cons] at hM
    have hany : jar.any (fun q => q.1 == p.1) = false := by
      simp only [List.any_eq_false, beq_iff_eq]
      intro q hq
      exact hd q hq p (List.mem_cons_self p M')
    have hset : cookieSet jar p.1 p.2 = jar ++ [p] := by
      unfold cookieSet
      rw [if_neg (by simp [hany])]
    have hd' : ∀ q ∈ jar ++ [p], ∀ r ∈ M', q.1 ≠ r.1 := by
      intro q hq r hr
      rcases List.mem_append.mp hq with hqj | hqp
      · exact hd q hqj r (List.mem_cons_of_mem p hr)
      · have : q = p := by simpa using hqp
        subst this
        intro hqr
        exact hM.1 (hqr ▸ List.mem_map_of_mem Prod.fst hr)
    rw [List.foldl_cons, hset, ih (jar ++ [p]) hd' hM.2,
      List.append_assoc, List.singleton_append]

/-! ### Session-store theorems -/

/-- C4: saving a well-formed token set (distinct names) and loading it
back into an empty jar restores exactly the same token set. -/
theorem session_roundtrip (T hdrs : Jar)
    (hT : (T.map Prod.fst).Nodup) :
    load_session [] (save_session T hdrs) = ⟨.loaded, T⟩ := by
  have h := foldl_cookieSet_of_disjoint T []
    (fun p hp => absurd hp (List.not_mem_nil p)) hT
  simp only [List.nil_append] at h
  simp [load_session, save_session, h]

/-- Witness for `session_roundtrip` at a concrete two-cookie token set. -/
theorem session_roundtrip_witness :
    (([("a", "1"), ("b", "2")] : Jar).map Prod.fst).Nodup ∧
    load_session [] (save_session [("a", "1"), ("b", "2")] []) =
      ⟨.loaded, [("a", "1"), ("b", "2")]⟩ :=
  ⟨by decide, session_roundtrip [("a", "1"), ("b", "2")] [] (by decide)⟩

/-- C6 counterexample: the value `load_session` returns is the same
`False` for a missing location as for a malformed one — the two failure
cases are not distinguishable in the operation's result. -/
theorem load_failures_same_result :
    (load_session [] .missing).result.toBool = false ∧
    (load_session [] .malformed).result.toBool = false ∧
    (load_session [] .missing).result.toBool =
      (load_session [] .malformed).result.toBool :=
  ⟨rfl, rfl, rfl⟩

/-- C6 amended: `load_session` never raises past the caller; a missing
location and a malformed one both leave the jar unchanged and both
return `False`, distinguished only by which diagnostic exit path
(printed message) was taken, not by the returned value. -/
theorem load_session_failure_paths (jar : Jar) :
    (load_session jar .missing).result = .notFound ∧
    (load_session jar .malformed).result = .loadError ∧
    (load_session jar .missing).result.toBool = false ∧
    (load_session jar .malformed).result.toBool = false ∧
    (load_session jar .missing).jar = jar ∧
    (load_session jar .malformed).jar = jar ∧
    (load_session jar .missing).result ≠ (load_session jar .malformed).result :=
  ⟨rfl, rfl, rfl, rfl, rfl, rfl, by simp [load_session]⟩

/-- C10: loading a persisted cookie mapping `M` merges it into the
pre-existing jar rather than replacing it: afterwards every name looks
up to its `M` value when `M` has it and to its old value otherwise, and
every pre-existing cookie whose name `M` does not mention is still
present — the jar is never cleared. -/
theorem load_session_merges (jar M : Jar)
    (hM : (M.map Prod.fst).Nodup) :
    (load_session jar (.record (some M))).result = .loaded ∧
    (∀ n, lookupName n (load_session jar (.record (some M))).jar =
       (lookupName n M).elim (lookupName n jar) some) ∧
    (∀ p ∈ jar, p.1 ∉ M.map Prod.fst →
       p ∈ (load_session jar (.record (some M))).jar) := by
  refine ⟨rfl, ?_, ?_⟩
  · intro n
    simpa [load_session] using lookupName_foldl_cookieSet M jar n hM
  · intro p hp hnp
    simpa [load_session] using mem_foldl_cookieSet M jar p hp hnp

/-- Witness for `load_session_merges`: a jar with an untouched cookie
`x` and an overridden cookie `a`. -/
theorem load_session_merges_witness :
    (([("a", "1"), ("b", "2")] : Jar).map Prod.fst).Nodup ∧
    lookupName "x"
      (load_session [("x", "0"), ("a", "old")]
        (.record (some [("a", "1"), ("b", "2")]))).jar =
      (lookupName "x" [("a", "1"), ("b", "2")]).elim
        (lookupName "x" [("x", "0"), ("a", "old")]) some :=
  ⟨by decide,
   (load_session_merges [("x", "0"), ("a", "old")] [("a", "1"), ("b", "2")]
      (by decide)).2.1 "x"⟩

/-! ### Lemmas about the network traces -/

lemma get_initial_auth_params_events (env : Env) :
    (get_initial_auth_params env).2 = [.getBase] := rfl

lemma test_authenticated_access_events (env : Env) (k : Nat) :
    (test_authenticated_access env k).2 = [.getDashboard] := rfl

lemma get_employee_id_events (env : Env) (k : Nat) :
    (get_employee_id env k).2 = [.getDashboard] := rfl

lemma perform_login_events (env : Env) :
    (perform_login env).2 = [.postLogin] ∨
      (perform_login env).2 = [.postLogin, .postFormPost] := by
  simp only [perform_login]
  repeat' split
  all_goals simp

lemma fresh_authentication_mem (env : Env) (k : Nat) (t0 : List NetEvent)
    (e : NetEvent) (he : e ∈ (fresh_authentication env k t0).2) :
    e ∈ t0 ∨ e = .getBase ∨ e = .getDashboard ∨ e = .postLogin ∨
      e = .postFormPost := by
  rcases perform_login_events env with hpl | hpl <;>
  · simp only [fresh_authentication, get_initial_auth_params_events,
      test_authenticated_access_events, hpl] at he
    repeat' split at he
    all_goals
      simp only [List.mem_append, List.mem_cons, List.mem_singleton,
        List.not_mem_nil, or_false] at he
      tauto

lemma ensure_authenticated_mem (env : Env) (e : NetEvent)
    (he : e ∈ (ensure_authenticated env).2) :
    e = .getBase ∨ e = .getDashboard ∨ e = .postLogin ∨ e = .postFormPost := by
  simp only [ensure_authenticated] at he
  split at he
  · split at he
    · simp only [test_authenticated_access_events, List.mem_singleton] at he
      exact Or.inr (Or.inl he)
    · rcases fresh_authentication_mem env 1 _ e he with h | h
      · simp only [test_authenticated_access_events, List.mem_singleton] at h
        exact Or.inr (Or.inl h)
      · exact h
  · rcases fresh_authentication_mem env 0 [] e he with h | h
    · exact absurd h (List.not_mem_nil e)
    · exact h

lemma ensure_authenticated_no_submission (env : Env) :
    NetEvent.postValidate ∉ (ensure_authenticated env).2 ∧
      NetEvent.postCommit ∉ (ensure_authenticated env).2 := by
  constructor <;> intro h <;>
    rcases ensure_authenticated_mem env _ h with h' | h' | h' | h' <;>
    simp at h'

lemma pre_submission_events_no_commit (env : Env) (k : Nat) :
    NetEvent.postValidate ∉
        (ensure_authenticated env).2 ++ (get_employee_id env k).2 ∧
      NetEvent.postCommit ∉
        (ensure_authenticated env).2 ++ (get_employee_id env k).2 := by
  constructor <;>
  · intro h
    rcases List.mem_append.mp h with h' | h'
    · first
      | exact (ensure_authenticated_no_submission env).1 h'
      | exact (ensure_authenticated_no_submission env).2 h'
    · simp [get_employee_id_events] at h'

/-! ### Lifecycle and submission theorems -/

/-- C2: when the persisted session loads and the authenticated-access
probe succeeds, `_ensure_authenticated` returns `True` having issued
only the probe's dashboard GET — no initial-parameter fetch, no
credential POST, no form_post POST. -/
theorem reuse_fast_path (env : Env)
    (hload : (load_session env.initialJar env.file).result.toBool = true)
    (hprobe : (test_authenticated_access env 0).1 = true) :
    ensure_authenticated env = (true, [.getDashboard]) ∧
    NetEvent.getBase ∉ (ensure_authenticated env).2 ∧
    NetEvent.postLogin ∉ (ensure_authenticated env).2 ∧
    NetEvent.postFormPost ∉ (ensure_authenticated env).2 := by
  have h : ensure_authenticated env = (true, [.getDashboard]) := by
    simp only [ensure_authenticated, hload]
    simp [hprobe, test_authenticated_access_events]
  refine ⟨h, ?_, ?_, ?_⟩ <;> rw [h] <;> simp

/-- Witness for `reuse_fast_path` at `happyEnv`. -/
theorem reuse_fast_path_witness :
    (load_session happyEnv.initialJar happyEnv.file).result.toBool = true ∧
    (test_authenticated_access happyEnv 0).1 = true ∧
    ensure_authenticated happyEnv = (true, [.getDashboard]) :=
  ⟨by decide, by decide,
   (reuse_fast_path happyEnv (by decide) (by decide)).1⟩

/-- C8: with neither time provided, `apply_coa` rejects at once — the
missing-times exit path, no payload, and an empty network trace — for
every date and every reason/category text. -/
theorem no_time_short_circuit (env : Env) (d r t : String) :
    apply_coa env d none none r t = ⟨.missingTimes, none, []⟩ := rfl

/-- C1 counterexample: on the non-canonical date `"07/25/2025"` with an
in-time given, `apply_coa` does reject with the invalid-date path, but
only after authenticating: the run issued the initial-parameter fetch
and the credential POST, so network interaction precedes the
rejection. -/
theorem invalid_date_after_network :
    (apply_coa freshEnv "07/25/2025" (some "09:00") none "r" "t").outcome
        = .invalidDate ∧
    (apply_coa freshEnv "07/25/2025" (some "09:00") none "r" "t").events ≠ [] ∧
    NetEvent.getBase ∈
      (apply_coa freshEnv "07/25/2025" (some "09:00") none "r" "t").events ∧
    NetEvent.postLogin ∈
      (apply_coa freshEnv "07/25/2025" (some "09:00") none "r" "t").events := by
  decide

/-- C1 amended: with some time provided and an ASCII date string that
does not parse as `%Y-%m-%d` (the ASCII hypothesis marks where the
model and CPython's Unicode-aware `\d` agree), `apply_coa` never issues
the validate or commit POST and builds no payload, but the date check
runs only after `_ensure_authenticated`: when authentication succeeds
the result is the invalid-date precondition failure with exactly the
authentication trace, and when authentication fails the result is the
authentication failure instead. -/
theorem invalid_date_rejection (env : Env) (d : String)
    (tin tout : Option String) (r t : String)
    (htime : strTruthy tin = true ∨ strTruthy tout = true)
    (_hascii : ∀ c ∈ d.data, c.toNat < 128)
    (hdate : parseDateYMD d = none) :
    ((ensure_authenticated env).1 = true →
      apply_coa env d tin tout r t =
        ⟨.invalidDate, none, (ensure_authenticated env).2⟩) ∧
    ((ensure_authenticated env).1 = false →
      apply_coa env d tin tout r t =
        ⟨.authFailed, none, (ensure_authenticated env).2⟩) ∧
    NetEvent.postValidate ∉ (apply_coa env d tin tout r t).events ∧
    NetEvent.postCommit ∉ (apply_coa env d tin tout r t).events := by
  have hc : (!strTruthy tin && !strTruthy tout) = false := by
    rcases htime with h | h <;> simp [h]
  have hmain : apply_coa env d tin tout r t =
      if (ensure_authenticated env).1 then
        ⟨.invalidDate, none, (ensure_authenticated env).2⟩
      else ⟨.authFailed, none, (ensure_authenticated env).2⟩ := by
    simp only [apply_coa, hc]
    cases hauth : (ensure_authenticated env).1 <;> simp [hauth, hdate]
  refine ⟨?_, ?_, ?_, ?_⟩
  · intro h
    rw [hmain, if_pos h]
  · intro h
    rw [hmain, if_neg (by simp [h])]
  · rw [hmain]
    split <;> exact (ensure_authenticated_no_submission env).1
  · rw [hmain]
    split <;> exact (ensure_authenticated_no_submission env).2

/-- Witness for `invalid_date_rejection` at `freshEnv` and the spec's
example date `"07/25/2025"`. -/
theorem invalid_date_rejection_witness :
    (strTruthy (some "09:00") = true ∨ strTruthy none = true) ∧
    (∀ c ∈ ("07/25/2025" : String).data, c.toNat < 128) ∧
    parseDateYMD "07/25/2025" = none ∧
    NetEvent.postValidate ∉
      (apply_coa freshEnv "07/25/2025" (some "09:00") none "r" "t").events :=
  ⟨Or.inl (by decide), by decide, by decide,
   (invalid_date_rejection freshEnv "07/25/2025" (some "09:00") none "r" "t"
      (Or.inl (by decide)) (by decide) (by decide)).2.2.1⟩

/-- C3: whenever the validate-phase response carries a non-success HTTP
status, the commit POST never appears in the trace of `apply_coa`, and
any run that did reach the validate POST ends in the validate-failure
rejection. -/
theorem validate_failure_blocks_commit (env : Env) (d : String)
    (tin tout : Option String) (r t : String)
    (hns : env.validate.status < 200 ∨ 300 ≤ env.validate.status) :
    NetEvent.postCommit ∉ (apply_coa env d tin tout r t).events ∧
    (NetEvent.postValidate ∈ (apply_coa env d tin tout r t).events →
      (apply_coa env d tin tout r t).outcome =
        .validateFailed env.validate.status) := by
  have hne : (env.validate.status != 200) = true := by
    simp only [bne_iff_ne, ne_eq]
    omega
  simp only [apply_coa]
  split
  · simp
  · split
    · exact ⟨(ensure_authenticated_no_submission env).2,
        fun h => absurd h (ensure_authenticated_no_submission env).1⟩
    · split
      · exact ⟨(ensure_authenticated_no_submission env).2,
          fun h => absurd h (ensure_authenticated_no_submission env).1⟩
      · split
        · exact ⟨(pre_submission_events_no_commit env _).2,
            fun h => absurd h (pre_submission_events_no_commit env _).1⟩
        · constructor
          · intro h
            rcases List.mem_append.mp h with h' | h'
            · exact (pre_submission_events_no_commit env _).2
                (by simpa using h')
            · simp at h'
          · intro _
            rfl

/-- Witness for `validate_failure_blocks_commit` at `validate500Env`. -/
theorem validate_failure_blocks_commit_witness :
    (validate500Env.validate.status < 200 ∨
      300 ≤ validate500Env.validate.status) ∧
    NetEvent.postCommit ∉
      (apply_coa validate500Env "2025-07-20" (some "09:32") none "r" "t").events ∧
    (apply_coa validate500Env "2025-07-20" (some "09:32") none "r" "t").outcome =
      .validateFailed 500 :=
  ⟨Or.inr (by decide),
   (validate_failure_blocks_commit validate500Env "2025-07-20" (some "09:32")
      none "r" "t" (Or.inr (by decide))).1,
   (validate_failure_blocks_commit validate500Env "2025-07-20" (some "09:32")
      none "r" "t" (Or.inr (by decide))).2 (by decide)⟩

lemma apply_coa_commit_cases (env : Env) (d : String)
    (tin tout : Option String) (r t : String) :
    NetEvent.postCommit ∉ (apply_coa env d tin tout r t).events ∨
    ((env.commit.status != 200) = true ∧
      (apply_coa env d tin tout r t).outcome =
        .commitFailed env.commit.status) ∨
    ((env.commit.status != 200) = false ∧
      (apply_coa env d tin tout r t).outcome =
        commitOutcome env.commit.body) := by
  simp only [apply_coa]
  split
  · left; simp
  · split
    · left; exact (ensure_authenticated_no_submission env).2
    · split
      · left; exact (ensure_authenticated_no_submission env).2
      · split
        · left; exact (pre_submission_events_no_commit env _).2
        · split
          · left
            intro h
            rcases List.mem_append.mp h with h' | h'
            · exact (pre_submission_events_no_commit env _).2
                (by simpa using h')
            · simp at h'
          · split
            · right; left
              exact ⟨by assumption, rfl⟩
            · right; right
              refine ⟨?_, rfl⟩
              rename_i hc
              cases hb : (env.commit.status != 200)
              · rfl
              · exact absurd hb hc

/-- C5: when the commit POST was reached and its response status is 200,
the outcome of `apply_coa` is exactly `commitOutcome` of the response
body: a parsed envelope with a present, truthy `d` is accepted; an
unparsable body is accepted; a parsed envelope whose `d` is absent or
falsy is rejected as an unexpected response. -/
theorem commit_envelope_interpretation (env : Env) (d : String)
    (tin tout : Option String) (r t : String)
    (hcs : env.commit.status = 200)
    (hreach : NetEvent.postCommit ∈ (apply_coa env d tin tout r t).events) :
    (apply_coa env d tin tout r t).outcome = commitOutcome env.commit.body ∧
    (env.commit.body = none →
      (apply_coa env d tin tout r t).outcome = .accepted) ∧
    (∀ fields v, env.commit.body = some (.obj fields) →
      fields.reverse.lookup "d" = some v → v.truthy = true →
      (apply_coa env d tin tout r t).outcome = .accepted) ∧
    (∀ fields, env.commit.body = some (.obj fields) →
      (∀ v, fields.reverse.lookup "d" = some v → v.truthy = false) →
      (apply_coa env d tin tout r t).outcome = .unexpectedResponse) := by
  have hmain : (apply_coa env d tin tout r t).outcome =
      commitOutcome env.commit.body := by
    rcases apply_coa_commit_cases env d tin tout r t with h | ⟨hc, _⟩ | ⟨_, h⟩
    · exact absurd hreach h
    · rw [hcs] at hc
      exact absurd hc (by simp)
    · exact h
  refine ⟨hmain, ?_, ?_, ?_⟩
  · intro hb
    rw [hmain, hb]
    rfl
  · intro fields v hb hd ht
    rw [hmain, hb]
    simp only [commitOutcome]
    simp [hd, ht]
  · intro fields hb hv
    rw [hmain, hb]
    simp only [commitOutcome]
    cases hlk : (fields.reverse.lookup "d") with
    | none => simp [hlk]
    | some v => simp [hlk, hv v hlk]

/-- Witness for `commit_envelope_interpretation` at `happyEnv`: the
truthy-`d` envelope is accepted. -/
theorem commit_envelope_interpretation_witness :
    happyEnv.commit.status = 200 ∧
    NetEvent.postCommit ∈
      (apply_coa happyEnv "2025-07-20" (some "09:32") none "r" "t").events ∧
    (apply_coa happyEnv "2025-07-20" (some "09:32") none "r" "t").outcome =
      .accepted :=
  ⟨rfl, by decide,
   ((commit_envelope_interpretation happyEnv "2025-07-20" (some "09:32") none
      "r" "t" rfl (by decide)).1).trans (by decide)⟩

/-- C7 counterexample: a final URL on the foreign host `evil.example`
whose path merely mentions `sso.sprout.ph` — its host component is not
the identity provider, yet `get_initial_auth_params` does not fail with
the unexpected-host reason; it succeeds outright. -/
theorem unexpected_host_counterexample :
    urlHost evilEnv.initial.url ≠ "sso.sprout.ph" ∧
    (get_initial_auth_params evilEnv).1 ≠ .unexpectedHost ∧
    (get_initial_auth_params evilEnv).1.toBool = true := by
  decide

/-- C7 amended: `get_initial_auth_params` fails with the unexpected-host
reason exactly when the status is 200 and the string `"sso.sprout.ph"`
does not occur as a substring anywhere in the final URL — a substring
test on the whole URL, not a comparison of its host component. -/
theorem unexpected_host_iff (env : Env) :
    (get_initial_auth_params env).1 = .unexpectedHost ↔
      (env.initial.status = 200 ∧
        containsSubstr env.initial.url "sso.sprout.ph" = false) := by
  simp only [get_initial_auth_params]
  constructor
  · intro h
    split at h
    · simp at h
    · split at h
      · rename_i hst _
        refine ⟨?_, ?_⟩
        · have : ¬ env.initial.status ≠ 200 := by
            simpa [bne_iff_ne] using hst
          omega
        · rename_i hsub
          simpa using hsub
      · split at h
        · simp at h
        · split at h
          · split at h <;> simp at h
          · simp at h
  · rintro ⟨h200, hsub⟩
    rw [if_neg (by simp [h200]), if_pos (by simp [hsub])]

/-- C9: every payload that `apply_coa` POSTs carries exactly the
`certificate_logs` built from the request: with both times provided, the
`"In"` entry first and the `"Out"` entry second, each with the target
date, its own time and `CertificateLogID` 0; with one time provided,
exactly that one entry. -/
theorem payload_certificate_logs (env : Env) (d : String)
    (tin tout : Option String) (r t : String) (p : CoaPayload)
    (hp : (apply_coa env d tin tout r t).payload = some p) :
    p.FormattedCertificateLogs = certificateLogs d tin tout ∧
    (∀ s1 s2, tin = some s1 → tout = some s2 → strTruthy tin = true →
      strTruthy tout = true →
      p.FormattedCertificateLogs = [⟨d, s1, "In", 0⟩, ⟨d, s2, "Out", 0⟩]) ∧
    (∀ s1, tin = some s1 → strTruthy tin = true → strTruthy tout = false →
      p.FormattedCertificateLogs = [⟨d, s1, "In", 0⟩]) ∧
    (∀ s2, tout = some s2 → strTruthy tout = true → strTruthy tin = false →
      p.FormattedCertificateLogs = [⟨d, s2, "Out", 0⟩]) := by
  have hmain : p.FormattedCertificateLogs = certificateLogs d tin tout := by
    simp only [apply_coa] at hp
    split at hp
    · simp at hp
    · split at hp
      · simp at hp
      · split at hp
        · simp at hp
        · split at hp
          · simp at hp
          · split at hp
            · injection hp with h
              subst h
              rfl
            · split at hp <;>
              · injection hp with h
                subst h
                rfl
  refine ⟨hmain, ?_, ?_, ?_⟩
  · rintro s1 s2 rfl rfl h1 h2
    rw [hmain]
    simp [certificateLogs, h1, h2]
  · rintro s1 rfl h1 h2
    rw [hmain]
    simp [certificateLogs, h1, h2]
  · rintro s2 rfl h1 h2
    rw [hmain]
    simp [certificateLogs, h1, h2]

/-- Witness for `payload_certificate_logs` at `happyEnv` with both
times provided. -/
theorem payload_certificate_logs_witness :
    (apply_coa happyEnv "2025-07-20" (some "09:32") (some "17:30") "r" "t").payload
        = some happyPayload ∧
    happyPayload.FormattedCertificateLogs =
      [⟨"2025-07-20", "09:32", "In", 0⟩, ⟨"2025-07-20", "17:30", "Out", 0⟩] :=
  ⟨by decide,
   (payload_certificate_logs happyEnv "2025-07-20" (some "09:32") (some "17:30")
      "r" "t" happyPayload (by decide)).2.1 "09:32" "17:30" rfl rfl
      (by decide) (by decide)⟩

end SproutHeadless
